import Mathlib

set_option linter.unusedVariables false

/-!
Verification development for the `log_sheet` trip planner
(`driver_log/views.py`, `driver_log/models.py`).

The planner (`TripViewSet.create`) is embedded shallowly:

* Python floats are modelled as exact rationals (`ℚ`); all the arithmetic
  of the planner is plain `+ - * /` on floats, which the rational model
  tracks exactly, including the literal tolerances (`1e-6`) and constants
  (`0.000621371`, `8.75`, `55`, ...).
* `datetime` clock arithmetic is modelled by the hour-of-day cursor `t : ℚ`;
  the persisted `TimeField` values `time(t.hour, t.minute)` are the
  minute truncations `⌊60 * t⌋`, available as `LogEntry.startMin/endMin`.
* Calendar dates are modelled as day offsets (`ℕ`) from the start date
  (`day_cursor` only ever advances by whole days from the start date).
* The two network collaborators are modelled by their outcome: each call
  either fails (three distinct failure paths in the source: missing API
  key, request exception, bad API payload) or produces a value.  The
  successful network value itself is opaque input; every failure path of
  the source returns its own fallback, which is modelled exactly: the
  distance lookup falls back to 50 mi, the location namer without an API
  key falls back to the generic "Location at X miles" label, and with a
  key its route-endpoint branches delegate to `get_city_state_from_address`,
  which falls back to the raw input address (only the mid-route branch
  falls back to the generic label).
* The `while` loops of the source are embedded as fuel-indexed recursion;
  the fuel supplied is large enough for every run that terminates in the
  source, and all invariants are proved for every fuel value.
-/

namespace DriverLog

/-- Duty status choices of `LogEntry.DUTY_CHOICES` in `driver_log/models.py`. -/
inductive DutyStatus
  | OFF
  | SB
  | DR
  | ON
deriving DecidableEq, Repr

/-- Milestone type strings used by `TripViewSet.create` ("pickup", "fuel", "dropoff"). -/
inductive MType
  | pickup
  | fuel
  | dropoff
deriving DecidableEq, Repr

/-- A milestone dict `{"type": ..., "distance": ..., "time": ...}` from `views.py`. -/
structure Milestone where
  mtype : MType
  distance : ℚ
  mtime : ℚ
deriving DecidableEq, Repr

/-- The `remarks` text attached to a `LogEntry`:
`""` (default), `f"{type.title()} service"`, or `f"Fuel stop at {d} miles"`. -/
inductive Remark
  | noRemark
  | service (ty : MType)
  | fuelAt (d : ℚ)
deriving DecidableEq, Repr

/-- A `LogEntry` row as created by `TripViewSet.create`.
`day` is `log_sheet_date` as an offset from the start date; `startT`/`endT`
are the exact `datetime` hours-of-day whose minute truncations are stored in
the `TimeField`s; `dist` is `distance_driven` (the source never passes it for
DR entries, so it stays at the model default `0`, and passes literal `0` for
ON entries). -/
structure LogEntry where
  day : ℕ
  duty : DutyStatus
  startT : ℚ
  endT : ℚ
  dist : ℚ
  remark : Remark
deriving DecidableEq, Repr

/-- Stored `start_time` in minutes: `time(t.hour, t.minute)` truncates the
datetime cursor to whole minutes. -/
def LogEntry.startMin (e : LogEntry) : ℤ := ⌊e.startT * 60⌋

/-- Stored `end_time` in minutes. -/
def LogEntry.endMin (e : LogEntry) : ℤ := ⌊e.endT * 60⌋

/-- One entry of the `daily_progress` list built by `TripViewSet.create`. -/
structure Progress where
  day : ℕ
  start_location : String
  end_location : String
  daily_distance : ℚ
  cumulative_distance : ℚ
  driving_hours : ℚ
deriving DecidableEq, Repr

/-! ### Constants of the step-by-step calculation (`views.py` lines 329-338) -/

def daily_work_time : ℚ := 35 / 4
def driving_speed : ℚ := 55
def refuel_stop_time : ℚ := 1 / 4
def loading_stop_time : ℚ := 1
def daily_start_time : ℚ := 8
def fuel_interval_miles : ℚ := 1000
/-- The float literal `0.000621371` converting meters to miles. -/
def milesPerMeter : ℚ := 621371 / 1000000000

/-! ### Collaborator lookups -/

/-- Outcome of one `get_pickup_distance_miles` call.  The three non-`ok`
constructors are the three return sites of the source: missing
`GOOGLE_MAPS_API_KEY` (line 19), a non-OK API payload (line 41), and a raised
exception (line 45). -/
inductive DistOutcome
  | noKey
  | badResponse
  | requestError
  | ok (miles : ℚ)
deriving DecidableEq, Repr

/-- `get_pickup_distance_miles`: each failure path returns the fixed `50.0`
fallback; a successful lookup returns the parsed mileage. -/
def get_pickup_distance_miles : DistOutcome → ℚ
  | .ok m => m
  | _ => 50

/-- Outcome of one `get_city_state_from_address` call (`views.py` lines
49-92): a resolved "City, ST" style name from the geocode payload, or one of
its two address-fallback paths — a geocode response without usable results
(line 88) or a raised exception (line 92) — both of which return the input
address unchanged, never the generic label. -/
inductive CityStateOutcome
  | badResponse
  | requestError
  | resolved (name : String)
deriving DecidableEq, Repr

/-- `get_city_state_from_address`: both failure paths degrade to the original
address. -/
def get_city_state_from_address (o : CityStateOutcome) (address : String) : String :=
  match o with
  | .resolved s => s
  | _ => address

/-- Outcome of the mid-route directions/reverse-geocode chain inside
`get_location_name_from_route` (lines 112-259): a resolved place name, the
fall-through when the lookups produce nothing usable (generic label,
line 262), or a raised exception (generic label via the handler at
line 264). -/
inductive MidRouteOutcome
  | noResult
  | requestError
  | resolved (name : String)
deriving DecidableEq, Repr

/-- The environment of one `get_location_name_from_route` call: whether
`GOOGLE_MAPS_API_KEY` is set, what the delegated endpoint geocode
(`get_city_state_from_address`) would do, and what the mid-route lookup
chain would do. -/
structure LocCallEnv where
  hasKey : Bool
  geo : CityStateOutcome
  midRoute : MidRouteOutcome
deriving DecidableEq, Repr

/-- Python `round` (round-half-to-even), used by `round(...)` and by the
`:.1f` format. -/
def pyRound (q : ℚ) : ℤ :=
  let f := ⌊q⌋
  let r := q - f
  if r < 1 / 2 then f
  else if 1 / 2 < r then f + 1
  else if f % 2 = 0 then f else f + 1

/-- Python `int(...)` on a float: truncation toward zero. -/
def ratTrunc (q : ℚ) : ℤ := if q < 0 then -⌊-q⌋ else ⌊q⌋

/-- `f"{q:.1f}"` for the nonnegative mileages the planner formats. -/
def fmt1 (q : ℚ) : String :=
  let n := pyRound (q * 10)
  toString (n / 10) ++ "." ++ toString (n % 10)

/-- `get_location_name_from_route` (`views.py` lines 94-266).  Without an API
key it returns the generic `f"Location at {d:.1f} miles"` label (line 102).
With a key, a distance at or before the route start is geocoded from the
start address and a distance at or past the total from the dropoff address
(lines 105-110), each degrading to the raw address — not the generic label —
when the geocode fails.  Otherwise the mid-route directions/geocode chain
runs; its internals (segment choice, per-step scanning) are collapsed into
`LocCallEnv.midRoute`, matching its return sites: a resolved name, or the
generic label from the fall-through (line 262) and exception (line 265)
paths. -/
def get_location_name_from_route (call : LocCallEnv) (distance_miles : ℚ)
    (start_location pickup_location dropoff_location : String)
    (total_distance_miles : ℚ) : String :=
  if call.hasKey = false then "Location at " ++ fmt1 distance_miles ++ " miles"
  else if distance_miles ≤ 0 then get_city_state_from_address call.geo start_location
  else if total_distance_miles ≤ distance_miles then
    get_city_state_from_address call.geo dropoff_location
  else
    match call.midRoute with
    | .resolved s => s
    | _ => "Location at " ++ fmt1 distance_miles ++ " miles"

/-- The collaborator environment of one planning run: the two distance
lookups performed at lines 304-305, and the location-lookup behavior keyed by
the cumulative mileage the call is asked about. -/
structure Env where
  distStartPickup : DistOutcome
  distPickupDropoff : DistOutcome
  loc : ℚ → LocCallEnv

/-! ### Milestone planner (`views.py` lines 340-359) -/

/-- `estimated_fuel_stops = floor(total_distance_miles / fuel_interval_miles)`. -/
def estimatedFuelStops (total : ℚ) : ℤ := ⌊total / fuel_interval_miles⌋

/-- Insert into an already-built list, after every element whose distance is
`≤` the new element's: the stable placement Python's `list.sort` gives. -/
def insertMilestone (m : Milestone) : List Milestone → List Milestone
  | [] => [m]
  | x :: xs => if x.distance ≤ m.distance then x :: insertMilestone m xs else m :: x :: xs

/-- `milestones.sort(key=lambda x: x["distance"])` — a stable sort by distance. -/
def sortMilestones (l : List Milestone) : List Milestone :=
  l.foldl (fun acc m => insertMilestone m acc) []

/-- Lines 344-359: optional pickup milestone, fuel milestones at each
multiple `i * 1000` (for `i = 1 .. estimated_fuel_stops`) strictly below the
total, the dropoff milestone at the total, then the stable sort by distance. -/
def buildMilestones (start_to_pickup total : ℚ) : List Milestone :=
  let base :=
    (if 0 < start_to_pickup then [⟨MType.pickup, start_to_pickup, loading_stop_time⟩] else [])
      ++ ((List.range (Int.toNat (estimatedFuelStops total))).filterMap (fun (j : ℕ) =>
            if ((j : ℚ) + 1) * fuel_interval_miles < total then
              some ⟨MType.fuel, ((j : ℚ) + 1) * fuel_interval_miles, refuel_stop_time⟩
            else none))
      ++ [⟨MType.dropoff, total, loading_stop_time⟩]
  sortMilestones base

/-- Remarks attached at lines 468 and 499-502. -/
def remarkFor (m : Milestone) : Remark :=
  if m.mtype = MType.pickup ∨ m.mtype = MType.dropoff then Remark.service m.mtype
  else Remark.fuelAt m.distance

/-! ### Daily segmenter -/

/-- Result of the same-distance (stacked milestone) inner `while` of
lines 489-521. -/
structure SameResult where
  segs : List LogEntry
  t : ℚ
  remaining : ℚ
  ms : List Milestone
deriving Repr

/-- Lines 489-521: while the next milestone sits at the same cumulative
distance (within `1e-6`) and budget remains, log it as an ON stop. -/
def processSame (day : ℕ) (covered : ℚ) : List Milestone → ℚ → ℚ → SameResult
  | [], t, remaining => ⟨[], t, remaining, []⟩
  | m :: rest, t, remaining =>
    if |m.distance - covered| < 1 / 1000000 ∧ 0 < remaining then
      if m.mtime ≤ remaining then
        let stopEnd := t + m.mtime
        let seg : LogEntry := ⟨day, DutyStatus.ON, t, stopEnd, 0, remarkFor m⟩
        let r := processSame day covered rest stopEnd (remaining - m.mtime)
        ⟨seg :: r.segs, r.t, r.remaining, r.ms⟩
      else ⟨[], t, remaining, m :: rest⟩
    else ⟨[], t, remaining, m :: rest⟩

/-- Result of the per-day milestone `while` of lines 427-640. -/
structure InnerResult where
  segs : List LogEntry
  progress : List Progress
  t : ℚ
  covered : ℚ
  remaining : ℚ
  dailyDist : ℚ
  ms : List Milestone
deriving Repr

/-- Lines 427-640, the per-day milestone loop.  The milestone index of the
source is modelled by the unconsumed suffix of the milestone list; the loop
is driven by fuel (one unit per iteration — each iteration either consumes a
milestone or ends the day, so `ms.length` fuel reproduces the source loop
exactly). -/
def processMilestones (locName : ℚ → String) (total : ℚ) (day : ℕ) (currentLoc : String) :
    ℕ → List Milestone → ℚ → ℚ → ℚ → ℚ → InnerResult
  | _, [], t, covered, remaining, dailyDist => ⟨[], [], t, covered, remaining, dailyDist, []⟩
  | 0, m :: rest, t, covered, remaining, dailyDist =>
      ⟨[], [], t, covered, remaining, dailyDist, m :: rest⟩
  | fuel + 1, m :: rest, t, covered, remaining, dailyDist =>
    if 0 < remaining then
      let dtm := m.distance - covered
      if dtm ≤ 0 then
        -- line 431: already passed this milestone, skip it
        processMilestones locName total day currentLoc fuel rest t covered remaining dailyDist
      else
        let driveT := dtm / driving_speed
        let totalT := driveT + m.mtime
        if totalT ≤ remaining then
          -- lines 447-485: drive to the milestone, log the stop
          let driveEnd := t + driveT
          let drSeg : LogEntry := ⟨day, DutyStatus.DR, t, driveEnd, 0, Remark.noRemark⟩
          let covered1 := covered + dtm
          let daily1 := dailyDist + dtm
          let rem1 := remaining - driveT
          let stopEnd := driveEnd + m.mtime
          let onSeg : LogEntry := ⟨day, DutyStatus.ON, driveEnd, stopEnd, 0, remarkFor m⟩
          let rem2 := rem1 - m.mtime
          let sr := processSame day covered1 rest stopEnd rem2
          if m.mtype = MType.dropoff then
            -- lines 523-542: trip complete; store progress, zero the budget,
            -- force covered to the exact total
            let prog : Progress :=
              ⟨day, currentLoc, locName total, daily1, covered1, daily1 / driving_speed⟩
            ⟨drSeg :: onSeg :: sr.segs, [prog], sr.t, total, 0, daily1, sr.ms⟩
          else
            let r := processMilestones locName total day currentLoc fuel sr.ms sr.t covered1
                      sr.remaining daily1
            ⟨drSeg :: onSeg :: (sr.segs ++ r.segs), r.progress, r.t, r.covered, r.remaining,
              r.dailyDist, r.ms⟩
        else
          if m.mtype = MType.dropoff then
            -- lines 548-623
            let dtd := m.distance - covered
            if 0 < dtd then
              let driveT2 := dtd / driving_speed
              if driveT2 ≤ remaining then
                -- lines 554-602: reach the dropoff today; the dropoff service
                -- is logged even though it exceeds the remaining budget, and
                -- the milestone index is not advanced
                let driveEnd := t + driveT2
                let drSeg : LogEntry := ⟨day, DutyStatus.DR, t, driveEnd, 0, Remark.noRemark⟩
                let covered1 := covered + dtd
                let daily1 := dailyDist + dtd
                let stopEnd := driveEnd + m.mtime
                let onSeg : LogEntry :=
                  ⟨day, DutyStatus.ON, driveEnd, stopEnd, 0, Remark.service MType.dropoff⟩
                let prog : Progress :=
                  ⟨day, currentLoc, locName total, daily1, covered1, daily1 / driving_speed⟩
                ⟨[drSeg, onSeg], [prog], stopEnd, total, remaining - driveT2 - m.mtime, daily1,
                  m :: rest⟩
              else
                -- lines 603-619: cannot reach the dropoff; drive out the budget
                let dist := remaining * driving_speed
                let drSeg : LogEntry := ⟨day, DutyStatus.DR, t, t + remaining, 0, Remark.noRemark⟩
                ⟨[drSeg], [], t + remaining, covered + dist, 0, dailyDist + dist, m :: rest⟩
            else
              -- lines 620-623: "Already at dropoff location" (unreachable:
              -- `dtm ≤ 0` was already excluded)
              ⟨[], [], t, covered, remaining, dailyDist, m :: rest⟩
          else
            -- lines 624-640: drive out the budget toward a non-dropoff milestone
            let dist := remaining * driving_speed
            let drSeg : LogEntry := ⟨day, DutyStatus.DR, t, t + remaining, 0, Remark.noRemark⟩
            ⟨[drSeg], [], t + remaining, covered + dist, 0, dailyDist + dist, m :: rest⟩
    else ⟨[], [], t, covered, remaining, dailyDist, m :: rest⟩

/-- The state the outer day loop of `TripViewSet.create` carries between days. -/
structure OuterState where
  day : ℕ
  covered : ℚ
  ms : List Milestone
  currentLoc : String
  segs : List LogEntry
  progress : List Progress
deriving Repr

/-- The per-day milestone loop as the outer loop invokes it (lines 417-427). -/
def dayInner (locName : ℚ → String) (total : ℚ) (st : OuterState) : InnerResult :=
  processMilestones locName total st.day st.currentLoc st.ms.length st.ms
    daily_start_time st.covered daily_work_time 0

/-- Whether line 648 fires: leftover budget and no milestones left. -/
def dayHasExtra (locName : ℚ → String) (total : ℚ) (st : OuterState) : Prop :=
  0 < (dayInner locName total st).remaining ∧ (dayInner locName total st).ms = []

instance (locName : ℚ → String) (total : ℚ) (st : OuterState) :
    Decidable (dayHasExtra locName total st) := by
  unfold dayHasExtra; infer_instance

/-- The clock cursor at the end of the day's duty (before the trailing OFF). -/
def dayEndT (locName : ℚ → String) (total : ℚ) (st : OuterState) : ℚ :=
  if dayHasExtra locName total st then
    (dayInner locName total st).t + (dayInner locName total st).remaining
  else (dayInner locName total st).t

/-- Cumulative distance at the end of the day (after the line 648 drive). -/
def dayCovered (locName : ℚ → String) (total : ℚ) (st : OuterState) : ℚ :=
  if dayHasExtra locName total st then
    (dayInner locName total st).covered + (dayInner locName total st).remaining * driving_speed
  else (dayInner locName total st).covered

/-- `daily_distance_covered` at the end of the day. -/
def dayDaily (locName : ℚ → String) (total : ℚ) (st : OuterState) : ℚ :=
  if dayHasExtra locName total st then
    (dayInner locName total st).dailyDist + (dayInner locName total st).remaining * driving_speed
  else (dayInner locName total st).dailyDist

/-- All `LogEntry` rows one day-loop iteration appends: the morning OFF block
(lines 408-414), the milestone-loop segments, the leftover-budget DR segment
(lines 648-663) and the trailing OFF block to 23:59 (lines 665-673). -/
def dayBlock (locName : ℚ → String) (total : ℚ) (st : OuterState) : List LogEntry :=
  let r := dayInner locName total st
  let morning : LogEntry := ⟨st.day, DutyStatus.OFF, 0, 8, 0, Remark.noRemark⟩
  let extraSegs : List LogEntry :=
    if dayHasExtra locName total st then
      [⟨st.day, DutyStatus.DR, r.t, r.t + r.remaining, 0, Remark.noRemark⟩]
    else []
  let trail : LogEntry :=
    ⟨st.day, DutyStatus.OFF, dayEndT locName total st, 1439 / 60, 0, Remark.noRemark⟩
  morning :: (r.segs ++ extraSegs ++ [trail])

/-- One iteration of the outer day loop (lines 395-709): morning OFF block,
milestone loop, leftover-budget drive (line 648), trailing OFF block, then
either stop (line 676) or store the daily progress and advance the day. -/
def runDay (locName : ℚ → String) (total : ℚ) (st : OuterState) : OuterState :=
  let r := dayInner locName total st
  let covered1 := dayCovered locName total st
  let daily1 := dayDaily locName total st
  let newSegs := dayBlock locName total st
  if total ≤ covered1 then
    { day := st.day, covered := covered1, ms := r.ms, currentLoc := st.currentLoc,
      segs := st.segs ++ newSegs, progress := st.progress ++ r.progress }
  else
    let endLoc := locName covered1
    let prog : Progress := ⟨st.day, st.currentLoc, endLoc, daily1, covered1, daily1 / driving_speed⟩
    { day := st.day + 1, covered := covered1, ms := r.ms, currentLoc := endLoc,
      segs := st.segs ++ newSegs, progress := st.progress ++ r.progress ++ [prog] }

/-- The outer `while total_distance_covered < total_distance_miles` loop,
fuel-indexed. -/
def runDays (locName : ℚ → String) (total : ℚ) : ℕ → OuterState → OuterState
  | 0, st => st
  | fuel + 1, st =>
    if st.covered < total then runDays locName total fuel (runDay locName total st) else st

/-! ### Trip compiler -/

/-- The `summary` blob written to `trip.calculated_route_json` (lines 717-729).
`arrival` is the arrival instant in hours from midnight of the start date. -/
structure Summary where
  distance : String
  duration : String
  stops : ℤ
  arrival : ℚ
deriving DecidableEq, Repr

structure PlanResult where
  state : OuterState
  summary : Summary

/-- The input fields `TripViewSet.create` reads from the request and the trip:
the three location descriptors, the optional planning hints, the parsed local
start time, and the stored trip configuration. -/
structure PlanInput where
  startLocation : String
  pickupLocation : String
  dropoffLocation : String
  durationSeconds : ℤ
  distanceMeters : ℤ
  startHH : ℕ
  startMM : ℕ
  serviceMinutes : ℕ
  isProperty : Bool
  adverse : Bool

/-- Line 303: `trip.pickup_location and trip.pickup_location.strip()` — the
pickup branch is taken exactly when the pickup location contains some
non-whitespace character (empty and whitespace-only strings are falsy). -/
def PlanInput.hasPickup (i : PlanInput) : Bool :=
  i.pickupLocation.toList.any (fun c => !c.isWhitespace)

/-- Lines 285-289: derive the duration from the distance hint at 55 mph. -/
def derivedDurationSeconds (i : PlanInput) : ℤ :=
  if i.distanceMeters ≠ 0 ∧ i.durationSeconds = 0 then
    ratTrunc ((i.distanceMeters : ℚ) * milesPerMeter / driving_speed * 3600)
  else i.durationSeconds

/-- Lines 290-293: derive the distance from the (possibly derived) duration. -/
def derivedDistanceMeters (i : PlanInput) : ℤ :=
  if derivedDurationSeconds i ≠ 0 ∧ i.distanceMeters = 0 then
    ratTrunc ((derivedDurationSeconds i : ℚ) / 3600 * driving_speed / milesPerMeter)
  else i.distanceMeters

/-- Lines 299-314: `start_to_pickup_miles` (0 without a pickup location). -/
def startToPickupMiles (stpLookup : ℚ) (i : PlanInput) : ℚ :=
  if i.hasPickup then stpLookup else 0

/-- Lines 299-314: the authoritative `total_distance_miles`. -/
def totalDistanceMiles (stpLookup ptdLookup : ℚ) (i : PlanInput) : ℚ :=
  if i.hasPickup then stpLookup + ptdLookup
  else (derivedDistanceMeters i : ℚ) * milesPerMeter

/-- Fuel for the outer day loop: every day either consumes a milestone or
covers a full `8.75 * 55` miles, so this bound exceeds the number of days of
any terminating source run. -/
def outerFuel (msLen : ℕ) (total : ℚ) : ℕ := msLen + Int.toNat ⌈total * 4 / 1925⌉ + 2

/-- The whole planning computation of `TripViewSet.create`, given the already
resolved collaborator values. -/
def planTripCore (stpLookup ptdLookup : ℚ) (locName : ℚ → String) (i : PlanInput) : PlanResult :=
  let duration_seconds := derivedDurationSeconds i
  let distance_meters := derivedDistanceMeters i
  let start_to_pickup_miles := startToPickupMiles stpLookup i
  let total_distance_miles := totalDistanceMiles stpLookup ptdLookup i
  -- lines 316-319 (diagnostics only)
  let pure_driving_hours := total_distance_miles / driving_speed
  -- lines 321-327: the simplified HOS parameters; both branches of every
  -- conditional resolve to the same planning behavior
  let max_drive_per_day_hours : ℚ := if i.isProperty then 35 / 4 else 35 / 4
  let break_after_drive_hours : ℚ := if i.isProperty then 8 else 8
  let off_duty_min_hours : ℚ := if i.isProperty then 10 else 8
  let max_on_duty_window_hours : ℚ := if i.isProperty then 14 else 14
  let service_minutes := i.serviceMinutes
  let estimated_fuel_stops := estimatedFuelStops total_distance_miles
  let milestones := buildMilestones start_to_pickup_miles total_distance_miles
  -- line 363 (diagnostics only)
  let service_time_seconds := (service_minutes * 60) * 2
  let start_location_name := locName 0
  let init : OuterState :=
    { day := 0, covered := 0, ms := milestones, currentLoc := start_location_name,
      segs := [], progress := [] }
  let final := runDays locName total_distance_miles
                (outerFuel milestones.length total_distance_miles) init
  -- lines 717-729
  let hours := pyRound ((duration_seconds : ℚ) / 3600)
  let miles := pyRound total_distance_miles
  let arrival : ℚ := (i.startHH : ℚ) + (i.startMM : ℚ) / 60 + (duration_seconds : ℚ) / 3600
  { state := final,
    summary :=
      { distance := toString miles ++ " mi",
        duration := toString hours ++ "h",
        stops := estimated_fuel_stops,
        arrival := arrival } }

/-- The planning run against a collaborator environment.  The location calls
receive the trip's location descriptors and the authoritative total distance,
exactly as at the call sites of lines 387, 529, 589 and 683. -/
def planTrip (env : Env) (i : PlanInput) : PlanResult :=
  planTripCore (get_pickup_distance_miles env.distStartPickup)
    (get_pickup_distance_miles env.distPickupDropoff)
    (fun d => get_location_name_from_route (env.loc d) d i.startLocation i.pickupLocation
      i.dropoffLocation
      (totalDistanceMiles (get_pickup_distance_miles env.distStartPickup)
        (get_pickup_distance_miles env.distPickupDropoff) i)) i

/-- The authoritative total distance of a run against an environment. -/
def totalOf (env : Env) (i : PlanInput) : ℚ :=
  totalDistanceMiles (get_pickup_distance_miles env.distStartPickup)
    (get_pickup_distance_miles env.distPickupDropoff) i

/-! ### Observables the claims are stated over -/

/-- The recorded-minute chain predicate: segments are contiguous (each entry
starts at the stored minute the previous one ended) from `a` to `b`. -/
def chainToM : ℤ → List LogEntry → ℤ → Bool
  | a, [], b => decide (a = b)
  | a, e :: rest, b =>
    decide (e.startMin = a) && decide (e.startMin ≤ e.endMin) && chainToM e.endMin rest b

/-- The exact-time chain predicate over the underlying datetime cursor. -/
def chainTo : ℚ → List LogEntry → ℚ → Bool
  | a, [], b => decide (a = b)
  | a, e :: rest, b =>
    decide (e.startT = a) && decide (e.startT ≤ e.endT) && chainTo e.endT rest b

/-- One calendar day's stored segments tile `[00:00, 23:59]`: they begin with
the OFF block `00:00-08:00`, each entry starts at the minute the previous one
ended, and the last entry ends at `23:59` (minute 1439). -/
def tilesDayB : List LogEntry → Bool
  | [] => false
  | e :: rest =>
    decide (e.duty = DutyStatus.OFF) && decide (e.startT = 0) && decide (e.endT = 8) &&
      chainToM 0 (e :: rest) 1439

/-- Sum of the (exact) durations of the DR and ON segments of a list, in hours. -/
def onDutyHours (l : List LogEntry) : ℚ :=
  ((l.filter (fun e => decide (e.duty = DutyStatus.DR ∨ e.duty = DutyStatus.ON))).map
    (fun e => e.endT - e.startT)).sum

/-- Sum of the recorded `distance_driven` values of the DR segments. -/
def sumDRDistance (l : List LogEntry) : ℚ :=
  ((l.filter (fun e => decide (e.duty = DutyStatus.DR))).map (fun e => e.dist)).sum

/-- The segments of one calendar day, in creation order (which is the
`(log_sheet_date, start_time)` order the model serves them in). -/
def daySegs (l : List LogEntry) (d : ℕ) : List LogEntry :=
  l.filter (fun e => decide (e.day = d))

/-- Number of fuel milestones in a milestone list. -/
def countFuelMilestones (ms : List Milestone) : ℕ :=
  (ms.filter (fun m => decide (m.mtype = MType.fuel))).length

/-- Number of fuel-stop ON segments actually logged. -/
def countFuelSegs (l : List LogEntry) : ℕ :=
  (l.filter (fun e => match e.remark with | Remark.fuelAt _ => true | _ => false)).length

/-- The all-failure collaborator environment (Scenario C of the spec). -/
def failEnv : Env :=
  { distStartPickup := DistOutcome.requestError,
    distPickupDropoff := DistOutcome.requestError,
    loc := fun _ => ⟨false, CityStateOutcome.requestError, MidRouteOutcome.requestError⟩ }

/-- Environment with an API key present but every network lookup failing:
the distance lookups fall back to 50 mi and the endpoint geocode degrades to
the raw address. -/
def envGeoFail : Env :=
  { distStartPickup := DistOutcome.requestError,
    distPickupDropoff := DistOutcome.requestError,
    loc := fun _ => ⟨true, CityStateOutcome.requestError, MidRouteOutcome.requestError⟩ }

/-- Environment whose two distance lookups succeed with 50 mi each
(total route distance 100 mi); the location lookups all fail without a key. -/
def envPickup50 : Env :=
  ⟨DistOutcome.ok 50, DistOutcome.ok 50,
    fun _ => ⟨false, CityStateOutcome.requestError, MidRouteOutcome.requestError⟩⟩

/-- Environment with lookups 500 mi and 1500 mi (total 2000 mi, an exact
multiple of the fuel interval). -/
def envPickup500 : Env :=
  ⟨DistOutcome.ok 500, DistOutcome.ok 1500,
    fun _ => ⟨false, CityStateOutcome.requestError, MidRouteOutcome.requestError⟩⟩

/-- Environment where the pickup-to-dropoff lookup returns 0 mi, so the
dropoff milestone sits at the same distance as the pickup milestone. -/
def envTiedDropoff : Env :=
  ⟨DistOutcome.ok 50, DistOutcome.ok 0,
    fun _ => ⟨false, CityStateOutcome.requestError, MidRouteOutcome.requestError⟩⟩

/-- A pickup trip request with no planning hints and default configuration. -/
def pickupInput : PlanInput :=
  ⟨"Chicago, IL", "Milwaukee, WI", "Denver, CO", 0, 0, 8, 0, 60, true, false⟩

/-- Like `pickupInput` but with the trip's service time configured to 30 min. -/
def pickupInput30 : PlanInput :=
  ⟨"Chicago, IL", "Milwaukee, WI", "Denver, CO", 0, 0, 8, 0, 30, true, false⟩

/-- No pickup location, no duration/distance hints. -/
def emptyInput : PlanInput := ⟨"Chicago, IL", "", "Denver, CO", 0, 0, 8, 0, 60, true, false⟩

/-- No pickup, distance hint 700000 m (= 434.9597 mi exactly in the model). -/
def input700km : PlanInput :=
  ⟨"Chicago, IL", "", "Denver, CO", 0, 700000, 8, 0, 60, true, false⟩

/-- The milestone-list invariant the day-level proofs rely on: every stop
duration lies in `[0, 1]` and every non-fuel stop lasts exactly the hardcoded
`loading_stop_time` hour. `buildMilestones` always establishes it. -/
def MsOK (ms : List Milestone) : Prop :=
  ∀ m ∈ ms, (0 ≤ m.mtime ∧ m.mtime ≤ 1) ∧ (m.mtype ≠ MType.fuel → m.mtime = 1)

/-- What the same-distance loop guarantees about its result. -/
def SameSpec (day : ℕ) (ms : List Milestone) (t remaining : ℚ) (sr : SameResult) : Prop :=
  (∀ x ∈ sr.ms, x ∈ ms) ∧
  chainTo t sr.segs sr.t = true ∧
  onDutyHours sr.segs = sr.t - t ∧
  sr.t + max sr.remaining 0 ≤ t + max remaining 0 ∧
  (∀ e ∈ sr.segs, e.day = day) ∧
  (∀ e ∈ sr.segs, ∀ ty, e.remark = Remark.service ty → e.endT - e.startT = 1)

/-- What the per-day milestone loop guarantees about its result: the
unconsumed milestones are a subset of the input ones, the emitted segments
chain the clock cursor forward, their DR+ON time is exactly the cursor
advance, and the cursor cannot outrun the budget by more than one
`loading_stop_time` (the dropoff-service overrun of lines 554-583). -/
def InnerSpec (day : ℕ) (ms : List Milestone) (t remaining : ℚ) (r : InnerResult) : Prop :=
  (∀ x ∈ r.ms, x ∈ ms) ∧
  chainTo t r.segs r.t = true ∧
  onDutyHours r.segs = r.t - t ∧
  r.t + max r.remaining 0 ≤ t + max remaining 0 + 1 ∧
  (∀ e ∈ r.segs, e.day = day) ∧
  (∀ e ∈ r.segs, ∀ ty, e.remark = Remark.service ty → e.endT - e.startT = 1)

/-! ## Lemmas: list observables -/

theorem onDutyHours_nil : onDutyHours [] = 0 := rfl

theorem onDutyHours_cons (e : LogEntry) (l : List LogEntry) :
    onDutyHours (e :: l) =
      (if e.duty = DutyStatus.DR ∨ e.duty = DutyStatus.ON then e.endT - e.startT else 0) +
        onDutyHours l := by
  by_cases h : e.duty = DutyStatus.DR ∨ e.duty = DutyStatus.ON <;>
    simp [onDutyHours, List.filter_cons, h]

theorem onDutyHours_append (a b : List LogEntry) :
    onDutyHours (a ++ b) = onDutyHours a + onDutyHours b := by
  induction a with
  | nil => simp [onDutyHours_nil]
  | cons e l ih => simp [onDutyHours_cons, ih]; ring

theorem chainTo_append {a b c : ℚ} {l₁ l₂ : List LogEntry}
    (h₁ : chainTo a l₁ b = true) (h₂ : chainTo b l₂ c = true) :
    chainTo a (l₁ ++ l₂) c = true := by
  induction l₁ generalizing a with
  | nil =>
    simp only [chainTo, decide_eq_true_eq] at h₁
    simpa [h₁] using h₂
  | cons e l ih =>
    simp only [chainTo, Bool.and_eq_true, decide_eq_true_eq] at h₁ ⊢
    exact ⟨⟨h₁.1.1, h₁.1.2⟩, ih h₁.2⟩

theorem chainTo_triv (a : ℚ) : chainTo a [] a = true := by simp [chainTo]

theorem chainTo_single {a : ℚ} (e : LogEntry) (h : e.startT = a) (h2 : e.startT ≤ e.endT) :
    chainTo a [e] e.endT = true := by
  simp only [chainTo, Bool.and_eq_true, decide_eq_true_eq]
  exact ⟨⟨h, h2⟩, by simp⟩

/-- A chain never moves the cursor backwards. -/
theorem chainTo_le {a b : ℚ} {l : List LogEntry} (h : chainTo a l b = true) : a ≤ b := by
  induction l generalizing a with
  | nil => simp only [chainTo, decide_eq_true_eq] at h; exact le_of_eq h
  | cons e rest ih =>
    simp only [chainTo, Bool.and_eq_true, decide_eq_true_eq] at h
    calc a = e.startT := h.1.1.symm
    _ ≤ e.endT := h.1.2
    _ ≤ b := ih h.2

/-- Every entry of a chain starts at or after the chain's start. -/
theorem chainTo_mem_start {a b : ℚ} {l : List LogEntry} (h : chainTo a l b = true) :
    ∀ e ∈ l, a ≤ e.startT := by
  induction l generalizing a with
  | nil => intro e he; cases he
  | cons f rest ih =>
    simp only [chainTo, Bool.and_eq_true, decide_eq_true_eq] at h
    intro e he
    rcases List.mem_cons.1 he with rfl | he
    · exact le_of_eq h.1.1.symm
    · calc a = f.startT := h.1.1.symm
      _ ≤ f.endT := h.1.2
      _ ≤ e.startT := ih h.2 e he

/-- A chained list is sorted by its (exact) start times. -/
theorem chainTo_sorted {a b : ℚ} {l : List LogEntry} (h : chainTo a l b = true) :
    l.Pairwise (fun e f => e.startT ≤ f.startT) := by
  induction l generalizing a with
  | nil => exact List.Pairwise.nil
  | cons e rest ih =>
    simp only [chainTo, Bool.and_eq_true, decide_eq_true_eq] at h
    refine List.pairwise_cons.2 ⟨?_, ih h.2⟩
    intro f hf
    calc e.startT ≤ e.endT := h.1.2
    _ ≤ f.startT := chainTo_mem_start h.2 f hf

/-- Exact-time chains truncate to stored-minute chains. -/
theorem chainTo_toM {a b : ℚ} {l : List LogEntry} (h : chainTo a l b = true) :
    chainToM ⌊a * 60⌋ l ⌊b * 60⌋ = true := by
  induction l generalizing a with
  | nil =>
    simp only [chainTo, decide_eq_true_eq] at h
    simp [chainToM, h]
  | cons e rest ih =>
    simp only [chainTo, Bool.and_eq_true, decide_eq_true_eq] at h
    simp only [chainToM, Bool.and_eq_true, decide_eq_true_eq]
    refine ⟨⟨?_, ?_⟩, ih h.2⟩
    · rw [LogEntry.startMin, h.1.1]
    · exact Int.floor_le_floor (mul_le_mul_of_nonneg_right h.1.2 (by norm_num))

theorem daySegs_append (a b : List LogEntry) (d : ℕ) :
    daySegs (a ++ b) d = daySegs a d ++ daySegs b d := by
  simp [daySegs]

/-- Filtering a list by a day all its entries carry returns the list itself. -/
theorem daySegs_self {l : List LogEntry} {d : ℕ} (h : ∀ e ∈ l, e.day = d) :
    daySegs l d = l := by
  induction l with
  | nil => rfl
  | cons e rest ih =>
    simp only [daySegs, List.filter_cons]
    rw [if_pos (by simpa using h e (List.mem_cons_self e rest))]
    simpa [daySegs] using ih (fun f hf => h f (List.mem_cons_of_mem e hf))

/-- Filtering by a day none of the entries carry returns the empty list. -/
theorem daySegs_nil {l : List LogEntry} {d : ℕ} (h : ∀ e ∈ l, e.day ≠ d) :
    daySegs l d = [] := by
  induction l with
  | nil => rfl
  | cons e rest ih =>
    simp only [daySegs, List.filter_cons]
    rw [if_neg (by simpa using h e (List.mem_cons_self e rest))]
    exact ih (fun f hf => h f (List.mem_cons_of_mem e hf))

/-! ## Lemmas: the stable milestone sort -/

theorem insertMilestone_perm (m : Milestone) (l : List Milestone) :
    List.Perm (insertMilestone m l) (m :: l) := by
  induction l with
  | nil => simp [insertMilestone]
  | cons x xs ih =>
    simp only [insertMilestone]
    split
    · exact (ih.cons x).trans (List.Perm.swap m x xs)
    · exact List.Perm.refl _

theorem mem_insertMilestone {a m : Milestone} {l : List Milestone} :
    a ∈ insertMilestone m l ↔ a = m ∨ a ∈ l := by
  rw [(insertMilestone_perm m l).mem_iff, List.mem_cons]

theorem foldl_insertMilestone_perm :
    ∀ (l acc : List Milestone),
      List.Perm (l.foldl (fun a m => insertMilestone m a) acc) (acc ++ l)
  | [], acc => by simp
  | m :: l, acc => by
    simp only [List.foldl_cons]
    refine (foldl_insertMilestone_perm l (insertMilestone m acc)).trans ?_
    refine (List.Perm.append_right l (insertMilestone_perm m acc)).trans ?_
    exact List.perm_middle.symm

theorem sortMilestones_perm (l : List Milestone) : List.Perm (sortMilestones l) l := by
  simpa using foldl_insertMilestone_perm l []

theorem mem_sortMilestones {a : Milestone} {l : List Milestone} :
    a ∈ sortMilestones l ↔ a ∈ l := (sortMilestones_perm l).mem_iff

theorem pairwise_insertMilestone {m : Milestone} {l : List Milestone}
    (h : l.Pairwise (fun a b => a.distance ≤ b.distance)) :
    (insertMilestone m l).Pairwise (fun a b => a.distance ≤ b.distance) := by
  induction l with
  | nil => simp [insertMilestone]
  | cons x xs ih =>
    rw [List.pairwise_cons] at h
    simp only [insertMilestone]
    split_ifs with hx
    · refine List.pairwise_cons.2 ⟨?_, ih h.2⟩
      intro b hb
      rcases mem_insertMilestone.1 hb with rfl | hb
      · exact hx
      · exact h.1 b hb
    · refine List.pairwise_cons.2 ⟨?_, List.pairwise_cons.2 ⟨h.1, h.2⟩⟩
      intro b hb
      rcases List.mem_cons.1 hb with rfl | hb
      · exact le_of_not_le hx
      · exact le_trans (le_of_not_le hx) (h.1 b hb)

theorem sortMilestones_pairwise (l : List Milestone) :
    (sortMilestones l).Pairwise (fun a b => a.distance ≤ b.distance) := by
  have h : ∀ (l acc : List Milestone), acc.Pairwise (fun a b => a.distance ≤ b.distance) →
      (l.foldl (fun a m => insertMilestone m a) acc).Pairwise
        (fun a b => a.distance ≤ b.distance) := by
    intro l
    induction l with
    | nil => intro acc hacc; simpa using hacc
    | cons m xs ih => intro acc hacc; exact ih _ (pairwise_insertMilestone hacc)
  exact h l [] List.Pairwise.nil

/-! ## Lemmas: the milestone planner -/

theorem mem_buildMilestones {m : Milestone} {stp total : ℚ} :
    m ∈ buildMilestones stp total ↔
      (0 < stp ∧ m = ⟨MType.pickup, stp, loading_stop_time⟩) ∨
      (∃ i : ℕ, 1 ≤ i ∧ (i : ℚ) * fuel_interval_miles < total ∧
        m = ⟨MType.fuel, (i : ℚ) * fuel_interval_miles, refuel_stop_time⟩) ∨
      m = ⟨MType.dropoff, total, loading_stop_time⟩ := by
  unfold buildMilestones
  rw [mem_sortMilestones]
  constructor
  · intro h
    rcases List.mem_append.1 h with h12 | h3
    · rcases List.mem_append.1 h12 with h1 | h2
      · split_ifs at h1 with hstp
        · exact Or.inl ⟨hstp, by simpa using h1⟩
        · simp at h1
      · rcases List.mem_filterMap.1 h2 with ⟨j, hj, hfj⟩
        split_ifs at hfj with hlt
        · refine Or.inr (Or.inl ⟨j + 1, Nat.le_add_left 1 j, ?_, ?_⟩)
          · push_cast
            exact hlt
          · have hv := Option.some.inj hfj
            push_cast
            exact hv.symm
    · exact Or.inr (Or.inr (by simpa using h3))
  · intro h
    rcases h with ⟨hstp, rfl⟩ | ⟨i, hi1, hilt, rfl⟩ | rfl
    · refine List.mem_append.2 (Or.inl (List.mem_append.2 (Or.inl ?_)))
      rw [if_pos hstp]
      exact List.mem_singleton.2 rfl
    · refine List.mem_append.2 (Or.inl (List.mem_append.2 (Or.inr ?_)))
      refine List.mem_filterMap.2 ⟨i - 1, ?_, ?_⟩
      · rw [List.mem_range]
        have h1000 : (0 : ℚ) < fuel_interval_miles := by norm_num [fuel_interval_miles]
        have hq : (i : ℚ) ≤ total / fuel_interval_miles :=
          le_of_lt (by rw [lt_div_iff₀ h1000]; exact hilt)
        have hz : (i : ℤ) ≤ ⌊total / fuel_interval_miles⌋ :=
          Int.le_floor.2 (by exact_mod_cast hq)
        unfold estimatedFuelStops
        omega
      · have hcast : ((i - 1 : ℕ) : ℚ) + 1 = (i : ℚ) := by
          push_cast [Nat.cast_sub hi1]
          ring
        rw [hcast, if_pos hilt]
    · refine List.mem_append.2 (Or.inr ?_)
      exact List.mem_singleton.2 rfl

theorem buildMilestones_MsOK (stp total : ℚ) : MsOK (buildMilestones stp total) := by
  intro m hm
  rcases mem_buildMilestones.1 hm with ⟨_, rfl⟩ | ⟨i, _, _, rfl⟩ | rfl <;>
    refine ⟨⟨by norm_num [loading_stop_time, refuel_stop_time],
      by norm_num [loading_stop_time, refuel_stop_time]⟩, fun h => ?_⟩ <;>
    simp_all [loading_stop_time]


theorem chainTo_cons {a b : ℚ} {e : LogEntry} {l : List LogEntry}
    (h1 : e.startT = a) (h2 : e.startT ≤ e.endT) (h3 : chainTo e.endT l b = true) :
    chainTo a (e :: l) b = true := by
  simp only [chainTo, Bool.and_eq_true, decide_eq_true_eq]
  refine ⟨⟨?_, ?_⟩, ?_⟩
  · exact h1
  · exact h2
  · exact h3

/-- A service remark is only ever attached for a non-fuel milestone. -/
theorem remarkFor_service {m : Milestone} {ty : MType} (h : remarkFor m = Remark.service ty) :
    m.mtype ≠ MType.fuel := by
  intro hf
  rw [remarkFor, if_neg (by simp [hf])] at h
  cases h

/-! ## Lemmas: the same-distance loop -/

theorem processSame_spec (day : ℕ) (covered : ℚ) :
    ∀ (ms : List Milestone) (t remaining : ℚ), MsOK ms →
      SameSpec day ms t remaining (processSame day covered ms t remaining) := by
  intro ms
  induction ms with
  | nil =>
    intro t remaining hok
    unfold SameSpec processSame
    exact ⟨fun x hx => hx, chainTo_triv t, by simp [onDutyHours_nil], le_refl _,
      fun e he => absurd he (List.not_mem_nil e), fun e he => absurd he (List.not_mem_nil e)⟩
  | cons m rest ih =>
    intro t remaining hok
    have hokr : MsOK rest := fun x hx => hok x (List.mem_cons_of_mem m hx)
    have hm := hok m (List.mem_cons_self m rest)
    by_cases h1 : |m.distance - covered| < 1 / 1000000 ∧ 0 < remaining
    · by_cases h2 : m.mtime ≤ remaining
      · have ihr := ih (t + m.mtime) (remaining - m.mtime) hokr
        unfold SameSpec at ihr ⊢
        obtain ⟨ih1, ih2, ih3, ih4, ih5, ih6⟩ := ihr
        rw [processSame, if_pos h1, if_pos h2]
        dsimp only
        refine ⟨?_, ?_, ?_, ?_, ?_, ?_⟩
        · intro x hx
          exact List.mem_cons_of_mem m (ih1 x hx)
        · exact chainTo_cons rfl (by dsimp only; linarith [hm.1.1]) ih2
        · rw [onDutyHours_cons]
          dsimp only
          rw [if_pos (Or.inr rfl), ih3]
          ring
        · have hr2 : (0 : ℚ) ≤ remaining - m.mtime := by linarith
          rw [max_eq_left hr2] at ih4
          rw [max_eq_left (le_of_lt h1.2)]
          linarith
        · intro e he
          rcases List.mem_cons.1 he with rfl | he
          · rfl
          · exact ih5 e he
        · intro e he ty hty
          rcases List.mem_cons.1 he with rfl | he
          · dsimp only at hty ⊢
            have hone : m.mtime = 1 := hm.2 (remarkFor_service hty)
            rw [hone]
            ring
          · exact ih6 e he ty hty
      · unfold SameSpec
        rw [processSame, if_pos h1, if_neg h2]
        exact ⟨fun x hx => hx, chainTo_triv t, by simp [onDutyHours_nil], le_refl _,
          fun e he => absurd he (List.not_mem_nil e), fun e he => absurd he (List.not_mem_nil e)⟩
    · unfold SameSpec
      rw [processSame, if_neg h1]
      exact ⟨fun x hx => hx, chainTo_triv t, by simp [onDutyHours_nil], le_refl _,
        fun e he => absurd he (List.not_mem_nil e), fun e he => absurd he (List.not_mem_nil e)⟩

/-! ## Lemmas: the per-day milestone loop -/

theorem InnerSpec_triv (day : ℕ) (ms : List Milestone) (t covered remaining dailyDist : ℚ) :
    InnerSpec day ms t remaining ⟨[], [], t, covered, remaining, dailyDist, ms⟩ := by
  unfold InnerSpec
  exact ⟨fun x hx => hx, chainTo_triv t, by simp [onDutyHours_nil], by simp,
    fun e he => absurd he (List.not_mem_nil e), fun e he => absurd he (List.not_mem_nil e)⟩

theorem processMilestones_spec (locName : ℚ → String) (total : ℚ) (day : ℕ) (cl : String) :
    ∀ (fuel : ℕ) (ms : List Milestone) (t covered remaining dailyDist : ℚ), MsOK ms →
      InnerSpec day ms t remaining
        (processMilestones locName total day cl fuel ms t covered remaining dailyDist) := by
  intro fuel
  induction fuel with
  | zero =>
    intro ms t covered remaining dailyDist hok
    cases ms with
    | nil => rw [processMilestones]; exact InnerSpec_triv day [] t covered remaining dailyDist
    | cons m rest =>
      rw [processMilestones]
      exact InnerSpec_triv day (m :: rest) t covered remaining dailyDist
  | succ fuel ih =>
    intro ms t covered remaining dailyDist hok
    cases ms with
    | nil => rw [processMilestones]; exact InnerSpec_triv day [] t covered remaining dailyDist
    | cons m rest =>
      have hokr : MsOK rest := fun x hx => hok x (List.mem_cons_of_mem m hx)
      have hm := hok m (List.mem_cons_self m rest)
      rw [processMilestones]
      by_cases hr : 0 < remaining
      rotate_left
      · rw [if_neg hr]
        exact InnerSpec_triv day (m :: rest) t covered remaining dailyDist
      rw [if_pos hr]
      by_cases hd : m.distance - covered ≤ 0
      · rw [if_pos hd]
        obtain ⟨ih1, ih2, ih3, ih4, ih5, ih6⟩ := ih rest t covered remaining dailyDist hokr
        exact ⟨fun x hx => List.mem_cons_of_mem m (ih1 x hx), ih2, ih3, ih4, ih5, ih6⟩
      rw [if_neg hd]
      have hdtm : (0 : ℚ) < m.distance - covered := not_le.1 hd
      have hdrT : (0 : ℚ) ≤ (m.distance - covered) / driving_speed :=
        div_nonneg (le_of_lt hdtm) (by norm_num [driving_speed])
      by_cases hc : (m.distance - covered) / driving_speed + m.mtime ≤ remaining
      · rw [if_pos hc]
        have hsr := processSame_spec day (covered + (m.distance - covered)) rest
          (t + (m.distance - covered) / driving_speed + m.mtime)
          (remaining - (m.distance - covered) / driving_speed - m.mtime) hokr
        unfold SameSpec at hsr
        obtain ⟨hs1, hs2, hs3, hs4, hs5, hs6⟩ := hsr
        have hrem2 : (0 : ℚ) ≤ remaining - (m.distance - covered) / driving_speed - m.mtime := by
          linarith
        rw [max_eq_left hrem2] at hs4
        have hmax0 : (0 : ℚ) ≤ max (processSame day (covered + (m.distance - covered)) rest
            (t + (m.distance - covered) / driving_speed + m.mtime)
            (remaining - (m.distance - covered) / driving_speed - m.mtime)).remaining 0 :=
          le_max_right _ _
        by_cases hdrop : m.mtype = MType.dropoff
        · rw [if_pos hdrop]
          dsimp only
          refine ⟨?_, ?_, ?_, ?_, ?_, ?_⟩
          · intro x hx
            exact List.mem_cons_of_mem m (hs1 x hx)
          · refine chainTo_cons rfl (by dsimp only; linarith) ?_
            refine chainTo_cons rfl (by dsimp only; linarith [hm.1.1]) ?_
            exact hs2
          · rw [onDutyHours_cons, onDutyHours_cons]
            dsimp only
            rw [if_pos (Or.inl rfl), if_pos (Or.inr rfl), hs3]
            ring
          · rw [max_eq_left (le_of_lt hr)]
            rw [max_self]
            linarith
          · intro e he
            rcases List.mem_cons.1 he with rfl | he
            · rfl
            rcases List.mem_cons.1 he with rfl | he
            · rfl
            · exact hs5 e he
          · intro e he ty hty
            rcases List.mem_cons.1 he with rfl | he
            · cases hty
            rcases List.mem_cons.1 he with rfl | he
            · dsimp only at hty ⊢
              have hone : m.mtime = 1 := hm.2 (remarkFor_service hty)
              rw [hone]
              ring
            · exact hs6 e he ty hty
        · rw [if_neg hdrop]
          dsimp only
          have hok2 : MsOK (processSame day (covered + (m.distance - covered)) rest
              (t + (m.distance - covered) / driving_speed + m.mtime)
              (remaining - (m.distance - covered) / driving_speed - m.mtime)).ms :=
            fun x hx => hokr x (hs1 x hx)
          obtain ⟨ih1, ih2, ih3, ih4, ih5, ih6⟩ :=
            ih (processSame day (covered + (m.distance - covered)) rest
                (t + (m.distance - covered) / driving_speed + m.mtime)
                (remaining - (m.distance - covered) / driving_speed - m.mtime)).ms
              (processSame day (covered + (m.distance - covered)) rest
                (t + (m.distance - covered) / driving_speed + m.mtime)
                (remaining - (m.distance - covered) / driving_speed - m.mtime)).t
              (covered + (m.distance - covered))
              (processSame day (covered + (m.distance - covered)) rest
                (t + (m.distance - covered) / driving_speed + m.mtime)
                (remaining - (m.distance - covered) / driving_speed - m.mtime)).remaining
              (dailyDist + (m.distance - covered)) hok2
          refine ⟨?_, ?_, ?_, ?_, ?_, ?_⟩
          · intro x hx
            exact List.mem_cons_of_mem m (hs1 x (ih1 x hx))
          · refine chainTo_cons rfl (by dsimp only; linarith) ?_
            refine chainTo_cons rfl (by dsimp only; linarith [hm.1.1]) ?_
            exact chainTo_append hs2 ih2
          · rw [onDutyHours_cons, onDutyHours_cons, onDutyHours_append]
            dsimp only
            rw [if_pos (Or.inl rfl), if_pos (Or.inr rfl), hs3, ih3]
            ring
          · rw [max_eq_left (le_of_lt hr)]
            linarith
          · intro e he
            rcases List.mem_cons.1 he with rfl | he
            · rfl
            rcases List.mem_cons.1 he with rfl | he
            · rfl
            rcases List.mem_append.1 he with he | he
            · exact hs5 e he
            · exact ih5 e he
          · intro e he ty hty
            rcases List.mem_cons.1 he with rfl | he
            · cases hty
            rcases List.mem_cons.1 he with rfl | he
            · dsimp only at hty ⊢
              have hone : m.mtime = 1 := hm.2 (remarkFor_service hty)
              rw [hone]
              ring
            rcases List.mem_append.1 he with he | he
            · exact hs6 e he ty hty
            · exact ih6 e he ty hty
      · rw [if_neg hc]
        by_cases hdrop : m.mtype = MType.dropoff
        · rw [if_pos hdrop, if_pos hdtm]
          by_cases hreach : (m.distance - covered) / driving_speed ≤ remaining
          · rw [if_pos hreach]
            dsimp only
            refine ⟨fun x hx => hx, ?_, ?_, ?_, ?_, ?_⟩
            · refine chainTo_cons rfl (by dsimp only; linarith) ?_
              refine chainTo_cons rfl (by dsimp only; linarith [hm.1.1]) ?_
              exact chainTo_triv _
            · rw [onDutyHours_cons, onDutyHours_cons, onDutyHours_nil]
              dsimp only
              rw [if_pos (Or.inl rfl), if_pos (Or.inr rfl)]
              ring
            · rw [max_eq_left (le_of_lt hr)]
              rcases le_or_lt 0 (remaining - (m.distance - covered) / driving_speed - m.mtime)
                with hs | hs
              · rw [max_eq_left hs]
                linarith
              · rw [max_eq_right (le_of_lt hs)]
                linarith [hm.1.2]
            · intro e he
              rcases List.mem_cons.1 he with rfl | he
              · rfl
              rcases List.mem_cons.1 he with rfl | he
              · rfl
              · cases he
            · intro e he ty hty
              rcases List.mem_cons.1 he with rfl | he
              · cases hty
              rcases List.mem_cons.1 he with rfl | he
              · dsimp only at hty ⊢
                have hone : m.mtime = 1 := hm.2 (by simp [hdrop])
                rw [hone]
                ring
              · cases he
          · rw [if_neg hreach]
            dsimp only
            refine ⟨fun x hx => hx, ?_, ?_, ?_, ?_, ?_⟩
            · refine chainTo_cons rfl (by dsimp only; linarith) ?_
              exact chainTo_triv _
            · rw [onDutyHours_cons, onDutyHours_nil]
              dsimp only
              rw [if_pos (Or.inl rfl)]
              ring
            · dsimp only
              rw [max_eq_left (le_of_lt hr), max_self]
              linarith
            · intro e he
              rcases List.mem_cons.1 he with rfl | he
              · rfl
              · cases he
            · intro e he ty hty
              rcases List.mem_cons.1 he with rfl | he
              · cases hty
              · cases he
        · rw [if_neg hdrop]
          dsimp only
          refine ⟨fun x hx => hx, ?_, ?_, ?_, ?_, ?_⟩
          · refine chainTo_cons rfl (by dsimp only; linarith) ?_
            exact chainTo_triv _
          · rw [onDutyHours_cons, onDutyHours_nil]
            dsimp only
            rw [if_pos (Or.inl rfl)]
            ring
          · dsimp only
            rw [max_eq_left (le_of_lt hr), max_self]
            linarith
          · intro e he
            rcases List.mem_cons.1 he with rfl | he
            · rfl
            · cases he
          · intro e he ty hty
            rcases List.mem_cons.1 he with rfl | he
            · cases hty
            · cases he

/-! ## Lemmas: one day block -/

theorem dayInner_spec (locName : ℚ → String) (total : ℚ) (st : OuterState) (h : MsOK st.ms) :
    InnerSpec st.day st.ms daily_start_time daily_work_time (dayInner locName total st) :=
  processMilestones_spec locName total st.day st.currentLoc st.ms.length st.ms daily_start_time
    st.covered daily_work_time 0 h

/-- Unfolded shape of one day's segment block. -/
theorem dayBlock_eq (locName : ℚ → String) (total : ℚ) (st : OuterState) :
    dayBlock locName total st =
      (⟨st.day, DutyStatus.OFF, 0, 8, 0, Remark.noRemark⟩ : LogEntry) ::
        ((dayInner locName total st).segs ++
          (if dayHasExtra locName total st then
            [⟨st.day, DutyStatus.DR, (dayInner locName total st).t,
              (dayInner locName total st).t + (dayInner locName total st).remaining, 0,
              Remark.noRemark⟩]
          else []) ++
          [⟨st.day, DutyStatus.OFF, dayEndT locName total st, 1439 / 60, 0,
            Remark.noRemark⟩]) := rfl

/-- Across one day, the clock cursor never passes 17:45 (8:00 start, 8.75 h
budget, at most one extra `loading_stop_time` of dropoff-service overrun). -/
theorem dayEndT_le (locName : ℚ → String) (total : ℚ) (st : OuterState) (h : MsOK st.ms) :
    dayEndT locName total st ≤ 71 / 4 := by
  obtain ⟨-, -, -, h4, -, -⟩ := dayInner_spec locName total st h
  rw [max_eq_left (by norm_num [daily_work_time] : (0 : ℚ) ≤ daily_work_time)] at h4
  have hmr := le_max_left (dayInner locName total st).remaining (0 : ℚ)
  have hm0 := le_max_right (dayInner locName total st).remaining (0 : ℚ)
  rw [dayEndT]
  split_ifs with hx
  · unfold daily_start_time daily_work_time at h4
    linarith
  · unfold daily_start_time daily_work_time at h4
    linarith

theorem dayBlock_chain (locName : ℚ → String) (total : ℚ) (st : OuterState) (h : MsOK st.ms) :
    chainTo 0 (dayBlock locName total st) (1439 / 60) = true := by
  obtain ⟨-, h2, -, -, -, -⟩ := dayInner_spec locName total st h
  have h2x : chainTo 8 (dayInner locName total st).segs (dayInner locName total st).t = true := h2
  have hend : dayEndT locName total st ≤ 1439 / 60 :=
    le_trans (dayEndT_le locName total st h) (by norm_num)
  have htrail : chainTo (dayEndT locName total st)
      [⟨st.day, DutyStatus.OFF, dayEndT locName total st, 1439 / 60, 0, Remark.noRemark⟩]
      (1439 / 60) = true := by
    refine chainTo_cons rfl ?_ (chainTo_triv _)
    dsimp only
    exact hend
  rw [dayBlock_eq]
  refine chainTo_cons rfl (by dsimp only; norm_num) ?_
  dsimp only
  by_cases hx : dayHasExtra locName total st
  · rw [if_pos hx]
    have hmid : chainTo 8 ((dayInner locName total st).segs ++
        [⟨st.day, DutyStatus.DR, (dayInner locName total st).t,
          (dayInner locName total st).t + (dayInner locName total st).remaining, 0,
          Remark.noRemark⟩]) (dayEndT locName total st) = true := by
      refine chainTo_append h2x ?_
      refine chainTo_cons rfl ?_ ?_
      · dsimp only
        linarith [hx.1]
      · dsimp only
        rw [dayEndT, if_pos hx]
        exact chainTo_triv _
    exact chainTo_append hmid htrail
  · rw [if_neg hx]
    have hmid : chainTo 8 ((dayInner locName total st).segs ++ [])
        (dayEndT locName total st) = true := by
      rw [List.append_nil, dayEndT, if_neg hx]
      exact h2x
    exact chainTo_append hmid htrail

theorem dayBlock_tiles (locName : ℚ → String) (total : ℚ) (st : OuterState) (h : MsOK st.ms) :
    tilesDayB (dayBlock locName total st) = true := by
  have hm := chainTo_toM (dayBlock_chain locName total st h)
  have h0 : (⌊(0 : ℚ) * 60⌋ : ℤ) = 0 := by norm_num
  have h1439 : (⌊(1439 / 60 : ℚ) * 60⌋ : ℤ) = 1439 := by norm_num
  rw [h0, h1439] at hm
  rw [dayBlock_eq] at hm ⊢
  rw [tilesDayB, hm]
  simp

theorem dayBlock_sorted (locName : ℚ → String) (total : ℚ) (st : OuterState) (h : MsOK st.ms) :
    (dayBlock locName total st).Pairwise (fun a b => a.startMin ≤ b.startMin) := by
  have hs := chainTo_sorted (dayBlock_chain locName total st h)
  refine hs.imp ?_
  intro a b hab
  exact Int.floor_le_floor (mul_le_mul_of_nonneg_right hab (by norm_num))

theorem dayBlock_onDuty (locName : ℚ → String) (total : ℚ) (st : OuterState) (h : MsOK st.ms) :
    onDutyHours (dayBlock locName total st) ≤ daily_work_time + loading_stop_time := by
  obtain ⟨-, -, h3, h4, -, -⟩ := dayInner_spec locName total st h
  rw [max_eq_left (by norm_num [daily_work_time] : (0 : ℚ) ≤ daily_work_time)] at h4
  have hmr := le_max_left (dayInner locName total st).remaining (0 : ℚ)
  have hm0 := le_max_right (dayInner locName total st).remaining (0 : ℚ)
  rw [dayBlock_eq, onDutyHours_cons, onDutyHours_append, onDutyHours_append, onDutyHours_cons,
    onDutyHours_nil, h3]
  dsimp only
  have hoff : ¬(DutyStatus.OFF = DutyStatus.DR ∨ DutyStatus.OFF = DutyStatus.ON) := by simp
  rw [if_neg hoff, if_neg hoff]
  by_cases hx : dayHasExtra locName total st
  · rw [if_pos hx, onDutyHours_cons, onDutyHours_nil]
    dsimp only
    rw [if_pos (Or.inl rfl)]
    unfold daily_start_time daily_work_time loading_stop_time at *
    linarith
  · rw [if_neg hx, onDutyHours_nil]
    unfold daily_start_time daily_work_time loading_stop_time at *
    linarith

theorem dayBlock_day (locName : ℚ → String) (total : ℚ) (st : OuterState) (h : MsOK st.ms) :
    ∀ e ∈ dayBlock locName total st, e.day = st.day := by
  obtain ⟨-, -, -, -, h5, -⟩ := dayInner_spec locName total st h
  intro e he
  rw [dayBlock_eq] at he
  rcases List.mem_cons.1 he with rfl | he
  · rfl
  rcases List.mem_append.1 he with he | he
  · rcases List.mem_append.1 he with he | he
    · exact h5 e he
    · split_ifs at he with hx
      · rw [List.mem_singleton] at he
        subst he
        rfl
      · cases he
  · rw [List.mem_singleton] at he
    subst he
    rfl

theorem dayBlock_service (locName : ℚ → String) (total : ℚ) (st : OuterState) (h : MsOK st.ms) :
    ∀ e ∈ dayBlock locName total st, ∀ ty : MType,
      e.remark = Remark.service ty → e.endT - e.startT = loading_stop_time := by
  obtain ⟨-, -, -, -, -, h6⟩ := dayInner_spec locName total st h
  intro e he ty hty
  rw [dayBlock_eq] at he
  rcases List.mem_cons.1 he with rfl | he
  · cases hty
  rcases List.mem_append.1 he with he | he
  · rcases List.mem_append.1 he with he | he
    · rw [loading_stop_time]
      exact h6 e he ty hty
    · split_ifs at he with hx
      · rw [List.mem_singleton] at he
        subst he
        cases hty
      · cases he
  · rw [List.mem_singleton] at he
    subst he
    cases hty

/-! ## Lemmas: the outer day loop -/

theorem runDay_segs (locName : ℚ → String) (total : ℚ) (st : OuterState) :
    (runDay locName total st).segs = st.segs ++ dayBlock locName total st := by
  rw [runDay]
  split_ifs <;> rfl

theorem runDay_ms (locName : ℚ → String) (total : ℚ) (st : OuterState) :
    (runDay locName total st).ms = (dayInner locName total st).ms := by
  rw [runDay]
  split_ifs <;> rfl

theorem runDay_covered (locName : ℚ → String) (total : ℚ) (st : OuterState) :
    (runDay locName total st).covered = dayCovered locName total st := by
  rw [runDay]
  split_ifs <;> rfl

theorem runDay_day_cont (locName : ℚ → String) (total : ℚ) (st : OuterState)
    (h : ¬ total ≤ dayCovered locName total st) :
    (runDay locName total st).day = st.day + 1 := by
  rw [runDay, if_neg h]

theorem runDays_of_ge (locName : ℚ → String) (total : ℚ) (fuel : ℕ) (st : OuterState)
    (h : ¬ st.covered < total) : runDays locName total fuel st = st := by
  cases fuel with
  | zero => rfl
  | succ fuel => rw [runDays, if_neg h]

/-- Master shape lemma for the day loop: each calendar day present in the
final segment list either was present in the initial state or is exactly one
day block generated from an intermediate state with well-formed milestones. -/
theorem runDays_days (locName : ℚ → String) (total : ℚ) :
    ∀ (fuel : ℕ) (st : OuterState), MsOK st.ms →
      (∀ e ∈ st.segs, e.day < st.day) →
      ∀ d : ℕ, daySegs (runDays locName total fuel st).segs d = daySegs st.segs d ∨
        ∃ st2 : OuterState, MsOK st2.ms ∧ st2.day = d ∧
          daySegs (runDays locName total fuel st).segs d = dayBlock locName total st2 := by
  intro fuel
  induction fuel with
  | zero =>
    intro st hok hold d
    left
    rfl
  | succ fuel ih =>
    intro st hok hold d
    rw [runDays]
    by_cases hguard : st.covered < total
    rotate_left
    · rw [if_neg hguard]
      left
      rfl
    rw [if_pos hguard]
    have hms2 : MsOK (runDay locName total st).ms := by
      rw [runDay_ms]
      intro x hx
      exact hok x ((dayInner_spec locName total st hok).1 x hx)
    have hsegs2 : (runDay locName total st).segs = st.segs ++ dayBlock locName total st :=
      runDay_segs locName total st
    have hold_nil : st.day = d → daySegs st.segs d = [] := by
      intro hday
      refine daySegs_nil (fun e he => ?_)
      have := hold e he
      omega
    have hblock_self : st.day = d →
        daySegs (dayBlock locName total st) d = dayBlock locName total st := by
      intro hday
      exact daySegs_self (fun e he => by rw [dayBlock_day locName total st hok e he, hday])
    have hblock_nil : st.day ≠ d → daySegs (dayBlock locName total st) d = [] := by
      intro hday
      exact daySegs_nil (fun e he => by rw [dayBlock_day locName total st hok e he]; exact hday)
    by_cases hdone : total ≤ dayCovered locName total st
    · have hst : runDays locName total fuel (runDay locName total st) = runDay locName total st := by
        apply runDays_of_ge
        rw [runDay_covered]
        exact not_lt.2 hdone
      rw [hst, hsegs2, daySegs_append]
      by_cases hday : st.day = d
      · right
        refine ⟨st, hok, hday, ?_⟩
        rw [hold_nil hday, hblock_self hday, List.nil_append]
      · left
        rw [hblock_nil hday, List.append_nil]
    · have hday2 : (runDay locName total st).day = st.day + 1 :=
        runDay_day_cont locName total st hdone
      have hold2 : ∀ e ∈ (runDay locName total st).segs, e.day < (runDay locName total st).day := by
        rw [hsegs2, hday2]
        intro e he
        rcases List.mem_append.1 he with he | he
        · exact lt_trans (hold e he) (Nat.lt_succ_self _)
        · rw [dayBlock_day locName total st hok e he]
          exact Nat.lt_succ_self _
      rcases ih (runDay locName total st) hms2 hold2 d with hcase | ⟨st2, hok2, hday3, heq⟩
      · rw [hcase, hsegs2, daySegs_append]
        by_cases hday : st.day = d
        · right
          refine ⟨st, hok, hday, ?_⟩
          rw [hold_nil hday, hblock_self hday, List.nil_append]
        · left
          rw [hblock_nil hday, List.append_nil]
      · right
        exact ⟨st2, hok2, hday3, heq⟩

/-! ## Lemmas: the full planning run -/

theorem planTripCore_state (stpLookup ptdLookup : ℚ) (locName : ℚ → String) (i : PlanInput) :
    (planTripCore stpLookup ptdLookup locName i).state =
      runDays locName (totalDistanceMiles stpLookup ptdLookup i)
        (outerFuel (buildMilestones (startToPickupMiles stpLookup i)
            (totalDistanceMiles stpLookup ptdLookup i)).length
          (totalDistanceMiles stpLookup ptdLookup i))
        { day := 0, covered := 0,
          ms := buildMilestones (startToPickupMiles stpLookup i)
            (totalDistanceMiles stpLookup ptdLookup i),
          currentLoc := locName 0, segs := [], progress := [] } := rfl

/-- Every calendar day of a planning run is either absent from the log or
shows up as exactly one generated day block. -/
theorem planTrip_daySegs (env : Env) (i : PlanInput) (d : ℕ) :
    daySegs (planTrip env i).state.segs d = [] ∨
      ∃ st2 : OuterState, MsOK st2.ms ∧ st2.day = d ∧
        daySegs (planTrip env i).state.segs d =
          dayBlock (fun q => get_location_name_from_route (env.loc q) q i.startLocation
            i.pickupLocation i.dropoffLocation (totalOf env i)) (totalOf env i) st2 := by
  rw [planTrip, planTripCore_state]
  rcases runDays_days (fun q => get_location_name_from_route (env.loc q) q i.startLocation
        i.pickupLocation i.dropoffLocation
        (totalDistanceMiles (get_pickup_distance_miles env.distStartPickup)
          (get_pickup_distance_miles env.distPickupDropoff) i))
      (totalDistanceMiles (get_pickup_distance_miles env.distStartPickup)
        (get_pickup_distance_miles env.distPickupDropoff) i)
      (outerFuel (buildMilestones
          (startToPickupMiles (get_pickup_distance_miles env.distStartPickup) i)
          (totalDistanceMiles (get_pickup_distance_miles env.distStartPickup)
            (get_pickup_distance_miles env.distPickupDropoff) i)).length
        (totalDistanceMiles (get_pickup_distance_miles env.distStartPickup)
          (get_pickup_distance_miles env.distPickupDropoff) i))
      { day := 0, covered := 0,
        ms := buildMilestones
          (startToPickupMiles (get_pickup_distance_miles env.distStartPickup) i)
          (totalDistanceMiles (get_pickup_distance_miles env.distStartPickup)
            (get_pickup_distance_miles env.distPickupDropoff) i),
        currentLoc := get_location_name_from_route (env.loc 0) 0 i.startLocation
          i.pickupLocation i.dropoffLocation
          (totalDistanceMiles (get_pickup_distance_miles env.distStartPickup)
            (get_pickup_distance_miles env.distPickupDropoff) i),
        segs := [], progress := [] }
      (buildMilestones_MsOK _ _) (fun e he => absurd he (List.not_mem_nil e)) d with h | h
  · left
    exact h
  · right
    exact h


/-! ## Lemmas: fuel-milestone counting -/

theorem countFuelMilestones_perm {l1 l2 : List Milestone} (h : List.Perm l1 l2) :
    countFuelMilestones l1 = countFuelMilestones l2 := by
  unfold countFuelMilestones
  exact (h.filter _).length_eq

theorem length_filterMap_if {α β : Type} (p : α → Prop) [DecidablePred p] (f : α → β) :
    ∀ l : List α,
      (l.filterMap (fun a => if p a then some (f a) else none)).length =
        (l.filter (fun a => decide (p a))).length := by
  intro l
  induction l with
  | nil => rfl
  | cons a l ih =>
    by_cases h : p a <;> simp [List.filterMap_cons, List.filter_cons, h, ih]

/-- The fuel milestones in the built list are exactly the in-range multiples. -/
theorem countFuelMilestones_build (stp total : ℚ) :
    countFuelMilestones (buildMilestones stp total) =
      ((List.range (Int.toNat (estimatedFuelStops total))).filter
        (fun (j : ℕ) => decide (((j : ℚ) + 1) * fuel_interval_miles < total))).length := by
  unfold buildMilestones
  rw [countFuelMilestones_perm (sortMilestones_perm _)]
  unfold countFuelMilestones
  rw [List.filter_append, List.filter_append, List.length_append, List.length_append]
  have h1 : (List.filter (fun (m : Milestone) => decide (m.mtype = MType.fuel))
      (if 0 < stp then [(⟨MType.pickup, stp, loading_stop_time⟩ : Milestone)] else [])).length
      = 0 := by
    split_ifs <;> simp
  have h3 : (List.filter (fun (m : Milestone) => decide (m.mtype = MType.fuel))
      [(⟨MType.dropoff, total, loading_stop_time⟩ : Milestone)]).length = 0 := by
    simp
  have h2 : List.filter (fun (m : Milestone) => decide (m.mtype = MType.fuel))
      ((List.range (Int.toNat (estimatedFuelStops total))).filterMap (fun (j : ℕ) =>
        if ((j : ℚ) + 1) * fuel_interval_miles < total then
          some ⟨MType.fuel, ((j : ℚ) + 1) * fuel_interval_miles, refuel_stop_time⟩
        else none)) =
      (List.range (Int.toNat (estimatedFuelStops total))).filterMap (fun (j : ℕ) =>
        if ((j : ℚ) + 1) * fuel_interval_miles < total then
          some ⟨MType.fuel, ((j : ℚ) + 1) * fuel_interval_miles, refuel_stop_time⟩
        else none) := by
    refine List.filter_eq_self.2 ?_
    intro m hm
    rcases List.mem_filterMap.1 hm with ⟨j, hj, hfj⟩
    split_ifs at hfj
    · cases Option.some.inj hfj
      simp
  rw [h1, h2, h3]
  rw [length_filterMap_if (fun (j : ℕ) => ((j : ℚ) + 1) * fuel_interval_miles < total)
    (fun (j : ℕ) => (⟨MType.fuel, ((j : ℚ) + 1) * fuel_interval_miles, refuel_stop_time⟩ : Milestone))]
  omega

theorem filter_range_lt (m : ℕ) : ∀ n : ℕ,
    ((List.range n).filter (fun (j : ℕ) => decide (j < m))).length = min m n := by
  intro n
  induction n with
  | zero => simp
  | succ n ih =>
    rw [List.range_succ, List.filter_append, List.length_append, ih]
    by_cases h : n < m <;> simp [h] <;> omega

/-- When the total is an exact positive multiple of the interval, the built
list contains one fuel milestone fewer than `estimated_fuel_stops`. -/
theorem countFuelMilestones_multiple (stp : ℚ) (k : ℕ) (hk : 0 < k) :
    countFuelMilestones (buildMilestones stp ((k : ℚ) * fuel_interval_miles)) = k - 1 := by
  have hfi : (0 : ℚ) < fuel_interval_miles := by norm_num [fuel_interval_miles]
  have hdiv : ((k : ℚ) * fuel_interval_miles) / fuel_interval_miles = (k : ℚ) := by
    field_simp
  have hest : estimatedFuelStops ((k : ℚ) * fuel_interval_miles) = (k : ℤ) := by
    unfold estimatedFuelStops
    rw [hdiv]
    exact_mod_cast Int.floor_natCast k
  rw [countFuelMilestones_build, hest]
  have htn : Int.toNat (k : ℤ) = k := Int.toNat_natCast k
  rw [htn]
  have hcong : List.filter (fun (j : ℕ) => decide (((j : ℚ) + 1) * fuel_interval_miles <
      (k : ℚ) * fuel_interval_miles)) (List.range k) =
      List.filter (fun (j : ℕ) => decide (j < k - 1)) (List.range k) := by
    refine List.filter_congr ?_
    intro j hj
    rw [List.mem_range] at hj
    have : (((j : ℚ) + 1) * fuel_interval_miles < (k : ℚ) * fuel_interval_miles) ↔
        (j < k - 1) := by
      rw [mul_lt_mul_right hfi]
      constructor
      · intro h
        have : (j : ℚ) + 1 < (k : ℚ) := h
        have hjk : j + 1 < k := by exact_mod_cast this
        omega
      · intro h
        have hjk : j + 1 < k := by omega
        exact_mod_cast hjk
    simp [this]
  rw [hcong, filter_range_lt]
  omega

/-- When the total is nonnegative and not an exact multiple of the interval,
every candidate multiple below `estimated_fuel_stops` survives the strictness
filter. -/
theorem countFuelMilestones_not_multiple (stp total : ℚ) (h0 : 0 ≤ total)
    (hnm : ∀ k : ℕ, total ≠ (k : ℚ) * fuel_interval_miles) :
    countFuelMilestones (buildMilestones stp total) =
      Int.toNat (estimatedFuelStops total) := by
  have hfi : (0 : ℚ) < fuel_interval_miles := by norm_num [fuel_interval_miles]
  rw [countFuelMilestones_build]
  have hall : ∀ j ∈ List.range (Int.toNat (estimatedFuelStops total)),
      (fun (j : ℕ) => decide (((j : ℚ) + 1) * fuel_interval_miles < total)) j = true := by
    intro j hj
    rw [List.mem_range] at hj
    have hest0 : (0 : ℤ) ≤ estimatedFuelStops total := by
      unfold estimatedFuelStops
      exact Int.floor_nonneg.2 (div_nonneg h0 (le_of_lt hfi))
    have hj1 : ((j : ℤ) + 1) ≤ estimatedFuelStops total := by
      omega
    have hq : ((j : ℚ) + 1) ≤ total / fuel_interval_miles := by
      have := Int.le_floor.1 hj1
      exact_mod_cast this
    have hle : ((j : ℚ) + 1) * fuel_interval_miles ≤ total := by
      rw [← le_div_iff₀ hfi]
      exact hq
    have hne : ((j : ℚ) + 1) * fuel_interval_miles ≠ total := by
      intro heq
      exact hnm (j + 1) (by push_cast; exact heq.symm)
    simp [lt_of_le_of_ne hle hne]
  rw [List.filter_eq_self.2 hall, List.length_range]

/-! ## The claims

Kernel evaluation of concrete planning runs needs the (kernel-reducible but
elaborator-irreducible) core rational operations to be visible to `decide`. -/

set_option allowUnsafeReducibility true
attribute [local semireducible] Rat.add Rat.sub Rat.mul Rat.div Rat.inv Rat.neg

/-- C1: the spec (I2) claims the sum of the distances recorded on DR segments
equals the total route distance up to rounding; in the source every DR
`LogEntry` is created without `distance_driven`, so the recorded sum is `0`
even though the concrete run below covers 100 miles with two DR segments. -/
theorem c1_dr_distance_driven_zero :
    totalOf envPickup50 pickupInput = 100 ∧
    ((planTrip envPickup50 pickupInput).state.segs.filter
        (fun e => decide (e.duty = DutyStatus.DR))).length = 2 ∧
    sumDRDistance (planTrip envPickup50 pickupInput).state.segs = 0 ∧
    ¬ |sumDRDistance (planTrip envPickup50 pickupInput).state.segs -
        totalOf envPickup50 pickupInput| ≤ 1 := by
  decide

/-- C2: every calendar date present in a generated plan carries segments
that, in their stored order (already sorted by start time), begin with the
OFF block 00:00-08:00, are contiguous minute-by-minute, and end at 23:59. -/
theorem c2_day_tiling (env : Env) (i : PlanInput) (d : ℕ)
    (hpresent : ∃ e ∈ (planTrip env i).state.segs, e.day = d) :
    tilesDayB (daySegs (planTrip env i).state.segs d) = true ∧
      (daySegs (planTrip env i).state.segs d).Pairwise
        (fun a b => a.startMin ≤ b.startMin) := by
  rcases planTrip_daySegs env i d with h | ⟨st2, hok2, -, heq⟩
  · exfalso
    obtain ⟨e, he, hed⟩ := hpresent
    have hmem : e ∈ daySegs (planTrip env i).state.segs d := by
      rw [daySegs, List.mem_filter]
      exact ⟨he, by simp [hed]⟩
    rw [h] at hmem
    cases hmem
  · rw [heq]
    exact ⟨dayBlock_tiles _ _ _ hok2, dayBlock_sorted _ _ _ hok2⟩

/-- C2 witness: day 0 of the 100-mile pickup run tiles [00:00, 23:59]. -/
theorem c2_day_tiling_witness :
    tilesDayB (daySegs (planTrip envPickup50 pickupInput).state.segs 0) = true ∧
      (daySegs (planTrip envPickup50 pickupInput).state.segs 0).Pairwise
        (fun a b => a.startMin ≤ b.startMin) :=
  c2_day_tiling envPickup50 pickupInput 0
    ⟨⟨0, DutyStatus.OFF, 0, 8, 0, Remark.noRemark⟩, by decide, rfl⟩

/-- C3 counterexample: a 434.9597-mile no-pickup trip finishes in one day
whose DR+ON time is 4899597/550000 ≈ 8.908 h, exceeding the 8.75 h budget:
the dropoff branch of lines 554-583 logs the 1 h dropoff service even though
the budget cannot cover it. -/
theorem c3_daily_budget_exceeded :
    onDutyHours (daySegs (planTrip failEnv input700km).state.segs 0) = 4899597 / 550000 ∧
      ¬ onDutyHours (daySegs (planTrip failEnv input700km).state.segs 0) ≤ daily_work_time := by
  decide

/-- C3 as amended: each day's DR+ON time is bounded by the daily budget plus
one `loading_stop_time` (8.75 + 1 = 9.75 h); only the dropoff-service branch
can exceed the bare budget, and by at most the dropoff stop duration. -/
theorem c3_daily_duty_bounded_amended (env : Env) (i : PlanInput) (d : ℕ) :
    onDutyHours (daySegs (planTrip env i).state.segs d) ≤
      daily_work_time + loading_stop_time := by
  rcases planTrip_daySegs env i d with h | ⟨st2, hok2, -, heq⟩
  · rw [h, onDutyHours_nil]
    norm_num [daily_work_time, loading_stop_time]
  · rw [heq]
    exact dayBlock_onDuty _ _ _ hok2

/-- C4: when the dropoff milestone is consumed by the stacked same-distance
loop (pickup at 50 mi, pickup-to-dropoff lookup 0 mi, total 50 mi), the
completion mark of line 524 tests the outer milestone instead, so the planner
drives the leftover budget (line 648) after the dropoff: the day log gains a
phantom DR segment after the dropoff ON segment and the cumulative distance
ends at 371.25 mi, past the 50-mile total — refuting the claimed invariant. -/
theorem c4_stacked_dropoff_overshoot :
    totalOf envTiedDropoff pickupInput = 50 ∧
    (planTrip envTiedDropoff pickupInput).state.ms = [] ∧
    (planTrip envTiedDropoff pickupInput).state.covered = 1485 / 4 ∧
    ¬ (planTrip envTiedDropoff pickupInput).state.covered =
        totalOf envTiedDropoff pickupInput ∧
    daySegs (planTrip envTiedDropoff pickupInput).state.segs 0 =
      [⟨0, DutyStatus.OFF, 0, 8, 0, Remark.noRemark⟩,
       ⟨0, DutyStatus.DR, 8, 98 / 11, 0, Remark.noRemark⟩,
       ⟨0, DutyStatus.ON, 98 / 11, 109 / 11, 0, Remark.service MType.pickup⟩,
       ⟨0, DutyStatus.ON, 109 / 11, 120 / 11, 0, Remark.service MType.dropoff⟩,
       ⟨0, DutyStatus.DR, 120 / 11, 737 / 44, 0, Remark.noRemark⟩,
       ⟨0, DutyStatus.OFF, 737 / 44, 1439 / 60, 0, Remark.noRemark⟩] := by
  decide

/-- C5: the milestone planner emits exactly the optional pickup milestone (at
a positive start-to-pickup distance), one fuel milestone per positive interval
multiple strictly below the total, and the dropoff milestone at the total,
sorted ascending by distance; the stable sort keeps the pickup before the
dropoff at equal distance, and the 2500-mile example produces
[pickup@50, fuel@1000, fuel@2000, dropoff@2500]. -/
theorem c5_milestone_planner :
    (∀ stp total : ℚ,
        (buildMilestones stp total).Pairwise (fun a b => a.distance ≤ b.distance) ∧
        (∀ m : Milestone, m ∈ buildMilestones stp total ↔
          (0 < stp ∧ m = ⟨MType.pickup, stp, loading_stop_time⟩) ∨
          (∃ i : ℕ, 1 ≤ i ∧ (i : ℚ) * fuel_interval_miles < total ∧
            m = ⟨MType.fuel, (i : ℚ) * fuel_interval_miles, refuel_stop_time⟩) ∨
          m = ⟨MType.dropoff, total, loading_stop_time⟩)) ∧
    buildMilestones 50 2500 =
      [⟨MType.pickup, 50, 1⟩, ⟨MType.fuel, 1000, 1 / 4⟩, ⟨MType.fuel, 2000, 1 / 4⟩,
        ⟨MType.dropoff, 2500, 1⟩] ∧
    buildMilestones 50 50 = [⟨MType.pickup, 50, 1⟩, ⟨MType.dropoff, 50, 1⟩] := by
  refine ⟨fun stp total => ⟨?_, fun m => mem_buildMilestones⟩, by decide, by decide⟩
  exact sortMilestones_pairwise _

/-- C6 counterexample: for a 2000-mile trip (pickup leg 500 mi) the summary
reports `stops = 2` (= floor(2000/1000), without the strictness exclusion),
but only one fuel milestone exists and only one fuel ON segment is logged:
the reported count differs from the fuel stops actually used. -/
theorem c6_reported_stops_mismatch :
    (planTrip envPickup500 pickupInput).summary.stops = 2 ∧
    countFuelMilestones (buildMilestones 500 2000) = 1 ∧
    countFuelSegs (planTrip envPickup500 pickupInput).state.segs = 1 ∧
    (2 : ℤ) ≠ 1 := by
  decide

/-- C6 as amended: the summary's fuel-stop count is `floor(total / interval)`
with no exclusion; the milestone list holds that many fuel milestones when
the total is not an exact positive multiple of the interval, and one fewer
when it is — so reported and used counts differ exactly at positive exact
multiples. -/
theorem c6_fuel_count_amended :
    (∀ (env : Env) (i : PlanInput),
        (planTrip env i).summary.stops = ⌊totalOf env i / fuel_interval_miles⌋) ∧
    (∀ (stp : ℚ) (k : ℕ), 0 < k →
        countFuelMilestones (buildMilestones stp ((k : ℚ) * fuel_interval_miles)) = k - 1) ∧
    (∀ stp total : ℚ, 0 ≤ total → (∀ k : ℕ, total ≠ (k : ℚ) * fuel_interval_miles) →
        countFuelMilestones (buildMilestones stp total) =
          Int.toNat ⌊total / fuel_interval_miles⌋) := by
  refine ⟨fun env i => rfl, fun stp k hk => countFuelMilestones_multiple stp k hk,
    fun stp total h0 hnm => countFuelMilestones_not_multiple stp total h0 hnm⟩

/-- C6 witness: the amended statement evaluated on the 2000-mile run. -/
theorem c6_fuel_count_amended_witness :
    countFuelMilestones (buildMilestones 500 ((2 : ℕ) * fuel_interval_miles)) = 2 - 1 ∧
    (planTrip envPickup500 pickupInput).summary.stops =
      ⌊totalOf envPickup500 pickupInput / fuel_interval_miles⌋ :=
  ⟨c6_fuel_count_amended.2.1 500 2 (by norm_num),
    c6_fuel_count_amended.1 envPickup500 pickupInput⟩

/-- C7 counterexample: with `service_time_minutes = 30` the pickup and
dropoff ON segments still last exactly 1 hour (the hardcoded
`loading_stop_time`), not the configured 0.5 h: the Trip's configured service
time is never consulted by the milestone builder. -/
theorem c7_service_time_ignored :
    pickupInput30.serviceMinutes = 30 ∧
    ((planTrip envPickup50 pickupInput30).state.segs.filter
        (fun e => match e.remark with | Remark.service _ => true | _ => false)).map
      (fun e => e.endT - e.startT) = [1, 1] ∧
    ((30 : ℚ) / 60 ≠ 1) := by
  decide

/-- C7 as amended: every ON service segment of every planning run lasts
exactly the hardcoded `loading_stop_time` (1 h), independent of the trip's
`service_time_minutes` configuration. -/
theorem c7_service_duration_amended (env : Env) (i : PlanInput) (e : LogEntry) (ty : MType)
    (hmem : e ∈ (planTrip env i).state.segs) (hr : e.remark = Remark.service ty) :
    e.endT - e.startT = loading_stop_time := by
  have hed : e ∈ daySegs (planTrip env i).state.segs e.day := by
    rw [daySegs, List.mem_filter]
    exact ⟨hmem, by simp⟩
  rcases planTrip_daySegs env i e.day with h | ⟨st2, hok2, -, heq⟩
  · rw [h] at hed
    cases hed
  · rw [heq] at hed
    exact dayBlock_service _ _ _ hok2 e hed ty hr

/-- C7 witness: the pickup service segment of the 100-mile run lasts 1 h. -/
theorem c7_service_duration_amended_witness :
    ((⟨0, DutyStatus.ON, 98 / 11, 109 / 11, 0, Remark.service MType.pickup⟩ : LogEntry).endT -
      (⟨0, DutyStatus.ON, 98 / 11, 109 / 11, 0,
        Remark.service MType.pickup⟩ : LogEntry).startT) = loading_stop_time :=
  c7_service_duration_amended envPickup50 pickupInput
    ⟨0, DutyStatus.ON, 98 / 11, 109 / 11, 0, Remark.service MType.pickup⟩ MType.pickup
    (by decide) rfl

/-- C8: the `is_property_carrying` and `adverse_conditions` flags are read
into HOS parameters whose branches resolve to identical constants and are
never consulted by the day loop, so two runs differing only in those flags
produce identical segments, progress and summary. -/
theorem c8_flags_no_behavioral_effect (env : Env) (i : PlanInput) (p a : Bool) :
    planTrip env { i with isProperty := p, adverse := a } = planTrip env i := rfl

/-- C9 counterexample: with an API key present and the geocode failing
(`requests` exception or unusable payload), the location lookup at a route
endpoint returns the raw input address — `views.py` lines 107/110 delegate to
`get_city_state_from_address`, whose failure paths (lines 88 and 92) return
the address unchanged — not the generic "Location at X miles" label the
claim requires on any failure. -/
theorem c9_endpoint_failure_returns_address :
    get_location_name_from_route
        ⟨true, CityStateOutcome.requestError, MidRouteOutcome.requestError⟩
        0 "Chicago, IL" "Milwaukee, WI" "Denver, CO" 100 = "Chicago, IL" ∧
    get_location_name_from_route
        ⟨true, CityStateOutcome.badResponse, MidRouteOutcome.noResult⟩
        100 "Chicago, IL" "Milwaukee, WI" "Denver, CO" 100 = "Denver, CO" ∧
    "Chicago, IL" ≠ "Location at " ++ fmt1 0 ++ " miles" ∧
    "Denver, CO" ≠ "Location at " ++ fmt1 100 ++ " miles" := by
  exact ⟨by decide, by decide, by decide, by decide⟩

/-- C9 (amended): every failure path of the distance lookup returns the
fixed 50.0-mile fallback; the location lookup's fallback depends on where it
is asked: without an API key it is the generic "Location at X miles" label
for every distance, while with a key a distance at or before the route start
degrades to the raw start address, a distance at or past the total to the
raw dropoff address, and only a strictly-mid-route failure degrades to the
generic label.  No failure is surfaced: a planning run in which every
collaborator call fails is indistinguishable from one whose distance lookups
return exactly 50, and it still completes — the concrete 100-mile run
reaches its full total both without a key and with a key whose every network
request fails. -/
theorem c9_collaborator_fallbacks_amended
    (geo : CityStateOutcome) (mid : MidRouteOutcome) (d total : ℚ)
    (s p dp : String)
    (hgeo : ∀ n, geo ≠ CityStateOutcome.resolved n)
    (hmid : ∀ n, mid ≠ MidRouteOutcome.resolved n) :
    (get_pickup_distance_miles DistOutcome.noKey = 50 ∧
      get_pickup_distance_miles DistOutcome.badResponse = 50 ∧
      get_pickup_distance_miles DistOutcome.requestError = 50) ∧
    (get_location_name_from_route ⟨false, geo, mid⟩ d s p dp total =
      "Location at " ++ fmt1 d ++ " miles") ∧
    (d ≤ 0 →
      get_location_name_from_route ⟨true, geo, mid⟩ d s p dp total = s) ∧
    (0 < d → total ≤ d →
      get_location_name_from_route ⟨true, geo, mid⟩ d s p dp total = dp) ∧
    (0 < d → d < total →
      get_location_name_from_route ⟨true, geo, mid⟩ d s p dp total =
        "Location at " ++ fmt1 d ++ " miles") ∧
    (∀ i : PlanInput, planTrip failEnv i =
      planTrip ⟨DistOutcome.ok 50, DistOutcome.ok 50, failEnv.loc⟩ i) ∧
    (totalOf failEnv pickupInput = 100 ∧
      (planTrip failEnv pickupInput).state.covered = 100) ∧
    (totalOf envGeoFail pickupInput = 100 ∧
      (planTrip envGeoFail pickupInput).state.covered = 100) := by
  have hgen : ∀ a : String, get_city_state_from_address geo a = a := by
    intro a
    cases geo with
    | resolved n => exact absurd rfl (hgeo n)
    | badResponse => rfl
    | requestError => rfl
  refine ⟨⟨rfl, rfl, rfl⟩, rfl, ?_, ?_, ?_, fun i => rfl,
    ⟨by decide, by decide⟩, ⟨by decide, by decide⟩⟩
  · intro h
    simp only [get_location_name_from_route]
    rw [if_neg (by simp), if_pos h]
    exact hgen s
  · intro h1 h2
    simp only [get_location_name_from_route]
    rw [if_neg (by simp), if_neg (not_le.mpr h1), if_pos h2]
    exact hgen dp
  · intro h1 h2
    simp only [get_location_name_from_route]
    rw [if_neg (by simp), if_neg (not_le.mpr h1), if_neg (not_le.mpr h2)]

/-- C9 witness: the amended fallback characterization applied at concrete
inputs — start address at distance 0, dropoff address at distance 120 of a
100-mile route, generic label at the mid-route distance 60. -/
theorem c9_collaborator_fallbacks_amended_witness :
    get_location_name_from_route
        ⟨true, CityStateOutcome.requestError, MidRouteOutcome.requestError⟩
        0 "Chicago, IL" "Milwaukee, WI" "Denver, CO" 100 = "Chicago, IL" ∧
    get_location_name_from_route
        ⟨true, CityStateOutcome.badResponse, MidRouteOutcome.noResult⟩
        120 "Chicago, IL" "Milwaukee, WI" "Denver, CO" 100 = "Denver, CO" ∧
    get_location_name_from_route
        ⟨true, CityStateOutcome.requestError, MidRouteOutcome.noResult⟩
        60 "Chicago, IL" "Milwaukee, WI" "Denver, CO" 100 =
      "Location at " ++ fmt1 60 ++ " miles" := by
  refine ⟨?_, ?_, ?_⟩
  · exact (c9_collaborator_fallbacks_amended CityStateOutcome.requestError
      MidRouteOutcome.requestError 0 100 "Chicago, IL" "Milwaukee, WI" "Denver, CO"
      (fun n h => CityStateOutcome.noConfusion h)
      (fun n h => MidRouteOutcome.noConfusion h)).2.2.1 (by decide)
  · exact (c9_collaborator_fallbacks_amended CityStateOutcome.badResponse
      MidRouteOutcome.noResult 120 100 "Chicago, IL" "Milwaukee, WI" "Denver, CO"
      (fun n h => CityStateOutcome.noConfusion h)
      (fun n h => MidRouteOutcome.noConfusion h)).2.2.2.1 (by decide) (by decide)
  · exact (c9_collaborator_fallbacks_amended CityStateOutcome.requestError
      MidRouteOutcome.noResult 60 100 "Chicago, IL" "Milwaukee, WI" "Denver, CO"
      (fun n h => CityStateOutcome.noConfusion h)
      (fun n h => MidRouteOutcome.noConfusion h)).2.2.2.2.1 (by decide) (by decide)

/-- C10: with no pickup location and no hints, the total distance resolves to
0, the day loop never runs, and the run yields no segments, no progress
entries, a "0 mi" / 0-stop summary — computed without error. -/
theorem c10_zero_distance_plan :
    totalOf failEnv emptyInput = 0 ∧
    (planTrip failEnv emptyInput).state.segs = [] ∧
    (planTrip failEnv emptyInput).state.progress = [] ∧
    (planTrip failEnv emptyInput).summary.distance = "0 mi" ∧
    (planTrip failEnv emptyInput).summary.stops = 0 ∧
    (planTrip failEnv emptyInput).summary.duration = "0h" := by
  decide

end DriverLog
